import Mathlib

/-!
Verification of the `glsl-types` command-line wrapper (src/dist/index.js)
and, where the core engine is not part of the sources, of models built
from the specification's contracts.

The wrapper script does, in order:
1. installs global logging helpers and the filesystem capabilities the
   core engine calls into (`read_file`, `canonicalize`, `file_exists`,
   `create_dir_all`, `write_file`);
2. parses command-line options with defaults
   (`--input` default "./shaders", `--output` default "./output",
   `--file` no default, `--watch` default false);
3. if `--watch`: installs a recursive filesystem watcher on the input
   directory whose callback returns early on a missing or empty
   filename (JS truthiness), otherwise resolves the filename against
   the input directory and calls
   `glslTypes.start_cli(resolved, input, output)` when the resolved
   name's extension is a shader extension;
4. otherwise: exits with code 1 (stderr message) when `--file` is falsy
   or the file does not exist, and calls
   `glslTypes.start_cli(file, input, output)` otherwise.
-/

namespace GlslTypes

/-- Parsed command-line options, mirroring `program.opts()` in index.js.
`file` is `none` when `--file` was not supplied (JS `undefined`). -/
structure Options where
  input : String
  output : String
  file : Option String
  watch : Bool
deriving DecidableEq

/-- Commander option parsing (index.js lines 27-32): each value option
falls back to its declared default when the flag is absent; `--file`
has no default; the `--watch` boolean flag defaults to `false`. -/
def parseOptions (inputArg outputArg fileArg : Option String)
    (watchArg : Option Bool) : Options :=
  { input := inputArg.getD "./shaders"
    output := outputArg.getD "./output"
    file := fileArg
    watch := watchArg.getD false }

/-- index.js line 33. -/
def SHADER_EXTENSIONS : List String := [".vert", ".frag", ".vs", ".fs", ".glsl"]

/-- JS truthiness of the `options.file` value: `undefined` (here `none`)
and the empty string are falsy, any other string is truthy. -/
def fileOptionTruthy : Option String → Bool
  | none => false
  | some s => !s.isEmpty

/-- One invocation of the core entry point `glslTypes.start_cli`,
recording its three positional arguments in order. -/
structure StartCliCall where
  file : String
  input : String
  output : String
deriving DecidableEq

/-- The `fs.watch` callback (index.js lines 37-44), parameterised by the
external `path.resolve` and `path.extname` collaborators. A `none`
filename models a watch event whose filename is `null`/`undefined`; the
guard `if (!filename) return;` is a JS truthiness test, so it also
returns early on an empty-string filename before any path resolution.
Returns the `start_cli` call the event triggers, if any. -/
def watchHandler (resolve : String → String → String)
    (extname : String → String) (input output : String)
    (filename : Option String) : Option StartCliCall :=
  match filename with
  | none => none
  | some fn =>
    if fn.isEmpty then
      none
    else
      let resolved := resolve input fn
      if SHADER_EXTENSIONS.contains (extname resolved) then
        some { file := resolved, input := input, output := output }
      else
        none

/-- Outcome of the wrapper's top-level branch (index.js lines 35-56).
`errorExit msg` models `console.error(msg)` (a stderr write) followed by
`process.exit(1)`; `invoke` models a `start_cli` call; `watching` models
entering the watch branch (printing the banner and installing the
watcher). -/
inductive MainOutcome where
  | watching
  | errorExit (msg : String)
  | invoke (call : StartCliCall)
deriving DecidableEq

/-- The wrapper's top-level branch, parameterised by the external
`fs.existsSync` collaborator. Mirrors index.js lines 35-56. -/
def runMain (opts : Options) (fsExistsSync : String → Bool) : MainOutcome :=
  if opts.watch then
    .watching
  else if !fileOptionTruthy opts.file then
    .errorExit "Please provide a file to process"
  else if !fsExistsSync (opts.file.getD "") then
    .errorExit ("File " ++ opts.file.getD "" ++ " does not exist")
  else
    .invoke { file := opts.file.getD ""
              input := opts.input
              output := opts.output }

/-- The three filesystem capabilities the core calls into. -/
inductive Capability where
  | readFile
  | canonicalizeCap
  | fileExists
deriving DecidableEq

/-- One observable step of the wrapper script. -/
inductive ScriptStep where
  | installLogging (name : String)
  | installCapability (c : Capability)
  | installWriter (name : String)
  | parseArgs
  | printWatching
  | installWatcher (dir : String)
  | exitError (msg : String)
  | invokeCore (file input output : String)
deriving DecidableEq

/-- index.js lines 9-32 in source order: logging helpers, the three
capabilities the core reads through, the two writer helpers, then
argument parsing. -/
def setupSteps : List ScriptStep :=
  [ .installLogging "logln"
  , .installLogging "log"
  , .installLogging "log_with_color"
  , .installCapability .readFile
  , .installCapability .canonicalizeCap
  , .installCapability .fileExists
  , .installWriter "create_dir_all"
  , .installWriter "write_file"
  , .parseArgs ]

/-- Steps taken by the top-level branch, from its outcome. -/
def branchSteps (opts : Options) (fsExistsSync : String → Bool) :
    List ScriptStep :=
  match runMain opts fsExistsSync with
  | .watching => [.printWatching, .installWatcher opts.input]
  | .errorExit msg => [.exitError msg]
  | .invoke c => [.invokeCore c.file c.input c.output]

/-- The whole script's step trace: setup first, then the branch. -/
def scriptTrace (opts : Options) (fsExistsSync : String → Bool) :
    List ScriptStep :=
  setupSteps ++ branchSteps opts fsExistsSync

/-- The value installed as `global.read_file` (index.js line 18): reads
through `fs.readFileSync` with the "utf8" encoding argument. -/
def installed_read_file (fsReadFileSync : String → String → String) :
    String → String :=
  fun file => fsReadFileSync file "utf8"

/-- The value installed as `global.canonicalize` (index.js line 20):
`path.resolve` on the single path, i.e. its resolved absolute form. -/
def installed_canonicalize (pathResolveOne : String → String) :
    String → String :=
  fun file => pathResolveOne file

/-- The value installed as `global.file_exists` (index.js line 22):
`fs.existsSync`, a boolean. -/
def installed_file_exists (fsExistsSync : String → Bool) :
    String → Bool :=
  fun file => fsExistsSync file

/-! Core engine model. The engine (`./pkg/glsl_types.cjs`) is shipped
compiled and its sources are not part of this repository's `src/`; the
definitions below are modelled from the specification's contracts for
the data model (spec section 3), the code emitter (spec sections 4.6 and
6) and the include resolver (spec section 4.4). -/

/-- Modelled from the spec: scalar base types of the GLSL type model. -/
inductive ScalarBase where
  | bool
  | int
  | uint
  | float
  | double
deriving DecidableEq

/-- Modelled from the spec: the normalized GLSL type representation
(spec section 3), a tagged variant over scalars, vectors, matrices,
samplers, arrays (with fixed or unknown length) and named structs. -/
inductive GLSLType where
  | Scalar (base : ScalarBase)
  | Vector (base : ScalarBase) (size : Nat)
  | Matrix (rows cols : Nat)
  | Sampler (kind : String)
  | Array (elem : GLSLType) (length : Option Nat)
  | Struct (name : String)
deriving DecidableEq

/-- Modelled from the spec: GLSL storage qualifiers. -/
inductive Qualifier where
  | uniform
  | inAttr
  | outVarying
  | constQ
deriving DecidableEq

/-- Modelled from the spec: a struct definition, a name with an ordered
field list. -/
structure StructDef where
  name : String
  fields : List (String × GLSLType)
deriving DecidableEq

/-- Modelled from the spec: one interface declaration. -/
structure Declaration where
  qualifier : Qualifier
  type : GLSLType
  name : String
deriving DecidableEq

/-- Modelled from the spec: the per-file binding model driving code
generation. -/
structure ShaderInterface where
  sourceFile : String
  uniforms : List Declaration
  inputs : List Declaration
  outputs : List Declaration
  structs : List StructDef
deriving DecidableEq

/-- Modelled from the spec: a generated output artifact. -/
structure GeneratedArtifact where
  relativeOutputPath : String
  contents : String
deriving DecidableEq

/-- Separator-joined concatenation of a list of strings. -/
def joinSep (sep : String) : List String → String
  | [] => ""
  | [x] => x
  | x :: xs => x ++ sep ++ joinSep sep xs

/-- Modelled from the spec: nearest-equivalent binding-language type for
a scalar base. -/
def ScalarBase.render : ScalarBase → String
  | .bool => "boolean"
  | .int => "number"
  | .uint => "number"
  | .float => "number"
  | .double => "number"

/-- Modelled from the spec: nearest-equivalent binding-language type,
e.g. a 3-component float vector renders as a tuple of 3 numbers. -/
def GLSLType.render : GLSLType → String
  | .Scalar b => b.render
  | .Vector b n =>
    "[" ++ joinSep ", " (List.replicate n b.render) ++ "]"
  | .Matrix r c =>
    "[" ++ joinSep ", " (List.replicate (r * c) "number") ++ "]"
  | .Sampler kind => "Sampler_" ++ kind
  | .Array t _ => t.render ++ "[]"
  | .Struct n => n

/-- Characters before the last dot of the list, or `none` when the list
has no dot. -/
def beforeLastDot : List Char → Option (List Char)
  | [] => none
  | c :: rest =>
    match beforeLastDot rest with
    | some pre => some (c :: pre)
    | none => if c = '.' then some [] else none

/-- Modelled from the spec: the output path is the input path with its
shader extension replaced by the binding language's extension. -/
def replaceExtension (p : String) (ext : String) : String :=
  match beforeLastDot p.toList with
  | none => p ++ ext
  | some pre => String.mk pre ++ ext

/-- Modelled from the spec: render one struct definition. -/
def renderStructDef (s : StructDef) : String :=
  "interface " ++ s.name ++ " \x7b "
    ++ joinSep " "
        (s.fields.map (fun f => f.1 ++ ": " ++ f.2.render ++ ";"))
    ++ " \x7d\n"

/-- Modelled from the spec: render one declaration as a named field. -/
def renderDeclaration (d : Declaration) : String :=
  d.name ++ ": " ++ d.type.render ++ ";"

/-- Modelled from the spec: the code emitter `emit(ShaderInterface) ->
GeneratedArtifact` (spec sections 4.6 and 6): struct definitions first,
then the uniform, input and output declarations as typed named fields;
output path mirrors the source path with the extension replaced. -/
def emit (si : ShaderInterface) : GeneratedArtifact :=
  { relativeOutputPath := replaceExtension si.sourceFile ".ts"
    contents :=
      joinSep "" (si.structs.map renderStructDef)
        ++ "interface ShaderBindings \x7b "
        ++ joinSep " "
            ((si.uniforms ++ si.inputs ++ si.outputs).map renderDeclaration)
        ++ " \x7d\n" }

/-- Modelled from the spec: warnings the include resolver can emit. -/
inductive ResolveWarning where
  | cyclicInclude (path : String)
  | missingInclude (path : String)
deriving DecidableEq

/-- Modelled from the spec: the parsed form of one file as the include
resolver consumes it: its own declarations, struct definitions and the
include paths it names. -/
structure ParsedFile where
  decls : List Declaration
  structs : List StructDef
  includes : List String
deriving DecidableEq

/-- Modelled from the spec: the include resolver's merged result. -/
structure ResolveResult where
  decls : List Declaration
  structs : List StructDef
  warnings : List ResolveWarning
deriving DecidableEq

/-- Concatenation of two resolver results, child results first. -/
def ResolveResult.append (a b : ResolveResult) : ResolveResult :=
  { decls := a.decls ++ b.decls
    structs := a.structs ++ b.structs
    warnings := a.warnings ++ b.warnings }

/-- Number of distinct known file paths not yet visited: the decreasing
measure of include resolution. -/
def unvisitedCount (fs : List (String × ParsedFile))
    (visited : List String) : Nat :=
  ((fs.map Prod.fst).dedup.filter (fun k => !visited.contains k)).length

theorem filter_length_le {α : Type} (p q : α → Bool)
    (h : ∀ a, q a = true → p a = true) :
    ∀ L : List α, (L.filter q).length ≤ (L.filter p).length := by
  intro L
  induction L with
  | nil => simp
  | cons a t ih =>
    cases hqa : q a with
    | true =>
      have hpa := h a hqa
      simp [List.filter_cons, hqa, hpa]
      omega
    | false =>
      cases hpa : p a with
      | true =>
        simp [List.filter_cons, hqa, hpa]
        omega
      | false =>
        simp [List.filter_cons, hqa, hpa]
        exact ih

theorem filter_length_lt {α : Type} (p q : α → Bool)
    (h : ∀ a, q a = true → p a = true) (x : α) :
    ∀ L : List α, x ∈ L → p x = true → q x = false →
      (L.filter q).length < (L.filter p).length := by
  intro L
  induction L with
  | nil => simp
  | cons a t ih =>
    intro hx hp hq
    rcases List.mem_cons.mp hx with rfl | hxt
    · simp [List.filter_cons, hq, hp]
      exact Nat.lt_succ_of_le (filter_length_le p q h t)
    · cases hqa : q a with
      | true =>
        have hpa := h a hqa
        simp [List.filter_cons, hqa, hpa]
        exact ih hxt hp hq
      | false =>
        cases hpa : p a with
        | true =>
          simp [List.filter_cons, hqa, hpa]
          exact Nat.lt_succ_of_lt (ih hxt hp hq)
        | false =>
          simp [List.filter_cons, hqa, hpa]
          exact ih hxt hp hq

/-- Visiting a found file strictly shrinks the set of known unvisited
files: the decreasing measure of include resolution. -/
theorem unvisitedCount_decrease (fs : List (String × ParsedFile))
    (file : String) (visited : List String) (hvis : file ∉ visited)
    (pf : String × ParsedFile)
    (hfind : fs.find? (fun p => p.1 == file) = some pf) :
    unvisitedCount fs (file :: visited) < unvisitedCount fs visited := by
  have hmem : pf ∈ fs := List.mem_of_find?_eq_some hfind
  have hbeq := List.find?_some hfind
  have hkey : pf.1 = file := by
    simpa using hbeq
  have hfile : file ∈ (fs.map Prod.fst).dedup := by
    rw [List.mem_dedup]
    exact List.mem_map.mpr ⟨pf, hmem, hkey⟩
  unfold unvisitedCount
  refine filter_length_lt _ _ ?hpq file _ hfile ?hp ?hq
  case hpq =>
    intro a ha
    simp [List.contains] at ha ⊢
    exact ha.2
  case hp =>
    simp [List.contains, hvis]
  case hq =>
    simp [List.contains]

/-- Modelled from the spec: the include resolver
`resolveIncludes(filePath, inputRoot, visited)` (spec section 4.4).
The filesystem is a finite association list from canonical paths to
parsed files (the model takes paths as already canonical). A path
already in `visited` for the current chain is skipped with a
cyclic-include warning and never expanded; otherwise the file's includes
are resolved recursively with the current path added to `visited`, the
children's declarations and structs merged first, and the file's own
appended after them. -/
def resolveIncludes (fs : List (String × ParsedFile)) (file : String)
    (visited : List String) : ResolveResult :=
  if hvis : file ∈ visited then
    { decls := [], structs := []
      warnings := [ResolveWarning.cyclicInclude file] }
  else
    match hfind : fs.find? (fun p => p.1 == file) with
    | none =>
      { decls := [], structs := []
        warnings := [ResolveWarning.missingInclude file] }
    | some pf =>
      let merged :=
        (pf.2.includes.map
            (fun inc => resolveIncludes fs inc (file :: visited))).foldl
          ResolveResult.append ⟨[], [], []⟩
      { decls := merged.decls ++ pf.2.decls
        structs := merged.structs ++ pf.2.structs
        warnings := merged.warnings }
termination_by unvisitedCount fs visited
decreasing_by
  exact unvisitedCount_decrease fs file visited hvis pf hfind

/-- Option-valued traversal of a list, `none` as soon as one element
maps to `none`. -/
def optMapM {A B : Type} (f : A → Option B) : List A → Option (List B)
  | [] => some []
  | a :: t =>
    match f a, optMapM f t with
    | some b, some bt => some (b :: bt)
    | _, _ => none

/-- Step-bounded include resolution: the same algorithm as
`resolveIncludes`, but spending one unit of fuel per expanded file and
answering `none` when the fuel runs out. Used to state that the
resolver's recursion depth is bounded, i.e. that resolution
terminates. -/
def resolveIncludesFuel : Nat → List (String × ParsedFile) → String →
    List String → Option ResolveResult
  | 0, _, _, _ => none
  | fuel + 1, fs, file, visited =>
    if file ∈ visited then
      some { decls := [], structs := []
             warnings := [ResolveWarning.cyclicInclude file] }
    else
      match fs.find? (fun p => p.1 == file) with
      | none =>
        some { decls := [], structs := []
               warnings := [ResolveWarning.missingInclude file] }
      | some pf =>
        match optMapM
            (fun inc => resolveIncludesFuel fuel fs inc (file :: visited))
            pf.2.includes with
        | none => none
        | some subs =>
          let merged := subs.foldl ResolveResult.append ⟨[], [], []⟩
          some { decls := merged.decls ++ pf.2.decls
                 structs := merged.structs ++ pf.2.structs
                 warnings := merged.warnings }

theorem optMapM_eq_map_of_some {A B : Type} (f : A → Option B) (g : A → B) :
    ∀ L : List A, (∀ x ∈ L, f x = some (g x)) → optMapM f L = some (L.map g) := by
  intro L
  induction L with
  | nil => intro _; rfl
  | cons a t ih =>
    intro h
    have ha := h a (List.mem_cons_self a t)
    have ht := ih (fun x hx => h x (List.mem_cons_of_mem a hx))
    simp [optMapM, ha, ht]

/-- Any fuel beyond the number of known, not-yet-visited files is enough
for the step-bounded resolver to complete and agree with the total
resolver. -/
theorem resolveIncludesFuel_adequate :
    ∀ (n : Nat) (fs : List (String × ParsedFile)) (file : String)
      (visited : List String), unvisitedCount fs visited < n →
      resolveIncludesFuel n fs file visited =
        some (resolveIncludes fs file visited) := by
  intro n
  induction n with
  | zero =>
    intro fs file visited h
    omega
  | succ m ih =>
    intro fs file visited h
    by_cases hvis : file ∈ visited
    · rw [resolveIncludes.eq_def]
      simp [resolveIncludesFuel, hvis]
    · rw [resolveIncludes.eq_def]
      cases hfind : fs.find? (fun p => p.1 == file) with
      | none =>
        simp [resolveIncludesFuel, hvis, hfind]
      | some pf =>
        have hdec := unvisitedCount_decrease fs file visited hvis pf hfind
        have hm : unvisitedCount fs (file :: visited) < m := by omega
        have hmap := optMapM_eq_map_of_some
          (fun inc => resolveIncludesFuel m fs inc (file :: visited))
          (fun inc => resolveIncludes fs inc (file :: visited))
          pf.2.includes
          (fun inc _ => ih fs inc (file :: visited) hm)
        simp [resolveIncludesFuel, hvis, hfind, hmap]

/-! Claim theorems. -/

theorem isEmpty_false_of_ne {f : String} (h : f ≠ "") :
    f.isEmpty = false := by
  cases hif : f.isEmpty
  · rfl
  · exact absurd ((String.isEmpty_iff f).mp hif) h

theorem empty_string_isEmpty : ("" : String).isEmpty = true := rfl

/-- C1 counterexample: an event carrying an empty-string filename whose
resolution against the input directory carries a shader extension — as
`path.resolve("./shaders.glsl", "")` resolves to the input directory
itself and `path.extname` of it gives ".glsl" — triggers no invocation,
although the claim's biconditional demands one. -/
theorem watch_event_invokes_iff_shader_extension_counterexample :
    SHADER_EXTENSIONS.contains
        ((fun _ => ".glsl")
          ((fun d (_ : String) => d) "./shaders.glsl" "")) = true
    ∧ watchHandler (fun d (_ : String) => d) (fun _ => ".glsl")
        "./shaders.glsl" "./output" (some "") = none := by
  exact ⟨by decide, rfl⟩

/-- C1 (amended): in watch mode, a change event carrying a non-empty
filename `fn` triggers exactly one `start_cli` invocation — for the
filename resolved against the input directory — if and only if the
resolved name's extension is one of `.vert .frag .vs .fs .glsl`, and
none for any other extension; an event carrying an empty filename is
dropped by the truthiness guard and triggers no invocation. -/
theorem watch_event_invokes_iff_shader_extension
    (resolve : String → String → String) (extname : String → String)
    (input output : String) :
    (∀ fn : String, fn.isEmpty = false →
      ((watchHandler resolve extname input output (some fn) =
          some { file := resolve input fn, input := input, output := output }
        ↔ SHADER_EXTENSIONS.contains (extname (resolve input fn)) = true)
      ∧ (watchHandler resolve extname input output (some fn) = none
        ↔ SHADER_EXTENSIONS.contains (extname (resolve input fn)) = false)))
    ∧ watchHandler resolve extname input output (some "") = none := by
  constructor
  · intro fn hfn
    unfold watchHandler
    cases hc : SHADER_EXTENSIONS.contains (extname (resolve input fn)) <;>
      simp_all [List.contains]
  · rfl

/-- C1 witness: a non-empty `.vert` filename triggers the invocation for
its resolved path. -/
theorem watch_event_invokes_iff_shader_extension_witness :
    ("a.vert" : String).isEmpty = false
    ∧ ((watchHandler (fun d fn => d ++ "/" ++ fn) (fun _ => ".vert")
          "./shaders" "./output" (some "a.vert") =
          some { file := "./shaders/a.vert", input := "./shaders"
                 output := "./output" }
        ↔ SHADER_EXTENSIONS.contains ".vert" = true)
      ∧ (watchHandler (fun d fn => d ++ "/" ++ fn) (fun _ => ".vert")
          "./shaders" "./output" (some "a.vert") = none
        ↔ SHADER_EXTENSIONS.contains ".vert" = false)) :=
  ⟨by decide,
    (watch_event_invokes_iff_shader_extension
        (fun d fn => d ++ "/" ++ fn) (fun _ => ".vert")
        "./shaders" "./output").1 "a.vert" (by decide)⟩

/-- C6: each option the CLI does not receive falls back to its declared
default: input directory "./shaders", output directory "./output", and
watch mode off. -/
theorem cli_option_defaults (i o f : Option String) (w : Option Bool) :
    (parseOptions none o f w).input = "./shaders"
    ∧ (parseOptions i none f w).output = "./output"
    ∧ (parseOptions i o f none).watch = false :=
  ⟨rfl, rfl, rfl⟩

/-- C10: a watch event whose filename is missing (JS `null` or
`undefined`) is ignored: the handler returns before resolving the path
or invoking the core. -/
theorem watch_event_without_filename_ignored
    (resolve : String → String → String) (extname : String → String)
    (input output : String) :
    watchHandler resolve extname input output none = none :=
  rfl

/-- C9: when `--watch` is set, the wrapper enters the watch branch for
every `--file` value and every filesystem state, and never exits with
code 1 at this layer. -/
theorem watch_mode_skips_file_guards
    (opts : Options) (fsExistsSync : String → Bool)
    (hw : opts.watch = true) :
    runMain opts fsExistsSync = .watching
    ∧ ∀ msg, runMain opts fsExistsSync ≠ .errorExit msg := by
  refine ⟨by simp [runMain, hw], ?_⟩
  intro msg
  simp [runMain, hw]

/-- C9 witness: a concrete watch-mode invocation with no `--file` and an
empty filesystem still enters the watch branch. -/
theorem watch_mode_skips_file_guards_witness :
    (Options.mk "./shaders" "./output" none true).watch = true
    ∧ runMain (Options.mk "./shaders" "./output" none true)
        (fun _ => false) = .watching :=
  ⟨rfl, (watch_mode_skips_file_guards
    (Options.mk "./shaders" "./output" none true) (fun _ => false) rfl).1⟩

/-- C3: artifact generation is a pure function of the ShaderInterface:
equal interfaces always yield the same artifact and byte-identical
contents, so emitting twice from the same interface produces
byte-identical artifacts. -/
theorem emit_deterministic_and_idempotent
    (s₁ s₂ : ShaderInterface) (h : s₁ = s₂) :
    emit s₁ = emit s₂ ∧ (emit s₁).contents = (emit s₂).contents := by
  subst h
  exact ⟨rfl, rfl⟩

/-- Scenario A interface from the spec: `uniform vec3 color;
in vec2 uv; out vec4 fragColor;` in `shader.frag`. -/
def sampleInterface : ShaderInterface :=
  { sourceFile := "shader.frag"
    uniforms := [{ qualifier := .uniform, type := .Vector .float 3
                   name := "color" }]
    inputs := [{ qualifier := .inAttr, type := .Vector .float 2
                 name := "uv" }]
    outputs := [{ qualifier := .outVarying, type := .Vector .float 4
                  name := "fragColor" }]
    structs := [] }

/-- C3 witness: determinism and idempotence instantiated at the spec's
Scenario A interface. -/
theorem emit_deterministic_and_idempotent_witness :
    sampleInterface = sampleInterface
    ∧ (emit sampleInterface = emit sampleInterface
      ∧ (emit sampleInterface).contents = (emit sampleInterface).contents) :=
  ⟨rfl, emit_deterministic_and_idempotent sampleInterface sampleInterface rfl⟩

/-- C4: include resolution always terminates, cycles included: a
canonical path already in the visited set of the current chain is
skipped with a cyclic-include warning and never expanded, and the
step-bounded resolver completes with some finite fuel on every include
graph, agreeing with the total resolver. -/
theorem include_resolution_terminates_and_skips_cycles :
    (∀ (fs : List (String × ParsedFile)) (file : String)
        (visited : List String), file ∈ visited →
        resolveIncludes fs file visited =
          { decls := [], structs := []
            warnings := [ResolveWarning.cyclicInclude file] })
    ∧ (∀ (fs : List (String × ParsedFile)) (file : String)
        (visited : List String), ∃ fuel,
        resolveIncludesFuel fuel fs file visited =
          some (resolveIncludes fs file visited)) := by
  constructor
  · intro fs file visited h
    rw [resolveIncludes.eq_def]
    simp [h]
  · intro fs file visited
    exact ⟨unvisitedCount fs visited + 1,
      resolveIncludesFuel_adequate _ fs file visited (Nat.lt_succ_self _)⟩

/-- C4 witness: a directly self-including file is cut off with a
cyclic-include warning. -/
theorem include_resolution_terminates_and_skips_cycles_witness :
    "a.glsl" ∈ ["a.glsl"]
    ∧ resolveIncludes [] "a.glsl" ["a.glsl"] =
        { decls := [], structs := []
          warnings := [ResolveWarning.cyclicInclude "a.glsl"] } :=
  ⟨by decide,
    include_resolution_terminates_and_skips_cycles.1 [] "a.glsl" ["a.glsl"]
      (by decide)⟩

/-- C2: in non-watch mode, assuming the existence collaborator rejects
the empty path (as `fs.existsSync("")` does), the wrapper exits with
code 1 and a stderr message exactly when `--file` was omitted or the
given file does not exist; in every other non-watch invocation it
invokes the core with the given file and does not exit with code 1. -/
theorem nonwatch_exit_code_one_cases
    (opts : Options) (fsExistsSync : String → Bool)
    (hw : opts.watch = false) (hempty : fsExistsSync "" = false) :
    ((∃ msg, runMain opts fsExistsSync = .errorExit msg)
      ↔ (opts.file = none
          ∨ ∃ f, opts.file = some f ∧ fsExistsSync f = false))
    ∧ (∀ f, opts.file = some f → fsExistsSync f = true →
        runMain opts fsExistsSync =
          .invoke { file := f, input := opts.input, output := opts.output }) := by
  cases hfile : opts.file with
  | none =>
    simp [runMain, hw, fileOptionTruthy, hfile]
  | some f =>
    by_cases hfe : f = ""
    · subst hfe
      simp [runMain, hw, fileOptionTruthy, hfile, hempty,
        empty_string_isEmpty]
    · have hfe' : f.isEmpty = false := isEmpty_false_of_ne hfe
      cases hex : fsExistsSync f with
      | true =>
        simp [runMain, hw, fileOptionTruthy, hfile, hfe', hex]
      | false =>
        simp [runMain, hw, fileOptionTruthy, hfile, hfe', hex]

/-- C2 witness: an existing `--file a.frag` invokes the core and does
not exit. -/
theorem nonwatch_exit_code_one_cases_witness :
    (Options.mk "./shaders" "./output" (some "a.frag") false).watch = false
    ∧ (fun s => s == "a.frag") "" = false
    ∧ (Options.mk "./shaders" "./output" (some "a.frag") false).file =
        some "a.frag"
    ∧ (fun s => s == "a.frag") "a.frag" = true
    ∧ runMain (Options.mk "./shaders" "./output" (some "a.frag") false)
        (fun s => s == "a.frag") =
      .invoke { file := "a.frag", input := "./shaders", output := "./output" } :=
  ⟨rfl, by decide, rfl, by decide,
    (nonwatch_exit_code_one_cases
        (Options.mk "./shaders" "./output" (some "a.frag") false)
        (fun s => s == "a.frag") rfl (by decide)).2
      "a.frag" rfl (by decide)⟩

/-- C5: in both modes, the core entry point receives its three
arguments in the order (file path, input root, output root): the watch
callback passes the resolved changed file with the input and output
roots, and single-file mode passes the `--file` value with the input
and output roots. -/
theorem start_cli_argument_order :
    (∀ (resolve : String → String → String) (extname : String → String)
        (input output fn : String) (c : StartCliCall),
        watchHandler resolve extname input output (some fn) = some c →
        c.file = resolve input fn ∧ c.input = input ∧ c.output = output)
    ∧ (∀ (opts : Options) (fsExistsSync : String → Bool) (c : StartCliCall),
        runMain opts fsExistsSync = .invoke c →
        opts.file = some c.file ∧ c.input = opts.input ∧ c.output = opts.output) := by
  constructor
  · intro resolve extname input output fn c h
    unfold watchHandler at h
    simp at h
    rcases h with ⟨-, -, rfl⟩
    exact ⟨rfl, rfl, rfl⟩
  · intro opts fsExistsSync c h
    unfold runMain at h
    cases hw : opts.watch <;> rw [hw] at h
    · cases hfile : opts.file with
      | none => simp [fileOptionTruthy, hfile] at h
      | some f =>
        rw [hfile] at h
        by_cases hfe : f = ""
        · subst hfe
          simp [fileOptionTruthy, empty_string_isEmpty] at h
        · have hfe' : f.isEmpty = false := isEmpty_false_of_ne hfe
          cases hex : fsExistsSync f <;>
            simp [fileOptionTruthy, hfe', hex] at h
          rcases h with rfl
          exact ⟨rfl, rfl, rfl⟩
    · simp at h

/-- C5 witness: concrete watch-mode and single-file invocations carry
(file, input root, output root) in that order. -/
theorem start_cli_argument_order_witness :
    (watchHandler (fun d fn => d ++ "/" ++ fn) (fun _ => ".vert")
        "./shaders" "./output" (some "a.vert") =
        some { file := "./shaders/a.vert", input := "./shaders"
               output := "./output" }
      ∧ ({ file := "./shaders/a.vert", input := "./shaders"
           output := "./output" : StartCliCall }.file =
            (fun d fn => d ++ "/" ++ fn) "./shaders" "a.vert"
        ∧ ({ file := "./shaders/a.vert", input := "./shaders"
             output := "./output" : StartCliCall }.input = "./shaders"
        ∧ { file := "./shaders/a.vert", input := "./shaders"
            output := "./output" : StartCliCall }.output = "./output")))
    ∧ (runMain (Options.mk "./shaders" "./output" (some "a.frag") false)
          (fun s => s == "a.frag") =
        .invoke { file := "a.frag", input := "./shaders"
                  output := "./output" }
      ∧ ((Options.mk "./shaders" "./output" (some "a.frag") false).file =
            some "a.frag"
        ∧ ("a.frag" : String) = "a.frag" ∧ True)) :=
  ⟨⟨by decide,
    start_cli_argument_order.1 (fun d fn => d ++ "/" ++ fn)
      (fun _ => ".vert") "./shaders" "./output" "a.vert" _ (by decide)⟩,
   ⟨by decide, by
      have h := start_cli_argument_order.2
        (Options.mk "./shaders" "./output" (some "a.frag") false)
        (fun s => s == "a.frag")
        { file := "a.frag", input := "./shaders", output := "./output" }
        (by decide)
      exact ⟨h.1, rfl, trivial⟩⟩⟩

/-- C8: the shader-extension filter is a watch-mode concern only: in
single-file mode any existing `--file` is handed to the core, whatever
its extension. -/
theorem single_file_mode_ignores_extension_filter
    (opts : Options) (f : String) (fsExistsSync : String → Bool)
    (hw : opts.watch = false) (hfile : opts.file = some f)
    (hempty : fsExistsSync "" = false) (hex : fsExistsSync f = true) :
    runMain opts fsExistsSync =
      .invoke { file := f, input := opts.input, output := opts.output } := by
  have hfe : f ≠ "" := by
    intro he
    rw [he, hempty] at hex
    exact Bool.false_ne_true hex
  have hfe' : f.isEmpty = false := isEmpty_false_of_ne hfe
  simp [runMain, hw, fileOptionTruthy, hfile, hfe', hex]

/-- C8 witness: an existing file with the non-shader extension `.txt`
is still handed to the core in single-file mode. -/
theorem single_file_mode_ignores_extension_filter_witness :
    (Options.mk "./shaders" "./output" (some "notes.txt") false).watch = false
    ∧ (Options.mk "./shaders" "./output" (some "notes.txt") false).file =
        some "notes.txt"
    ∧ (fun s => s == "notes.txt") "" = false
    ∧ (fun s => s == "notes.txt") "notes.txt" = true
    ∧ SHADER_EXTENSIONS.contains ".txt" = false
    ∧ runMain (Options.mk "./shaders" "./output" (some "notes.txt") false)
        (fun s => s == "notes.txt") =
      .invoke { file := "notes.txt", input := "./shaders"
                output := "./output" } :=
  ⟨rfl, rfl, by decide, by decide, by decide,
    single_file_mode_ignores_extension_filter
      (Options.mk "./shaders" "./output" (some "notes.txt") false)
      "notes.txt" (fun s => s == "notes.txt") rfl rfl (by decide) (by decide)⟩

/-- C7: every step trace of the wrapper installs the three collaborator
capabilities — read-text via UTF-8, path-exists, canonicalize — at
fixed positions strictly before any position at which the core entry
point is invoked, and the installed values read through the external
collaborators exactly: `read_file` is `fs.readFileSync` at encoding
"utf8", `canonicalize` is `path.resolve` of the given path, and
`file_exists` is `fs.existsSync`. -/
theorem capabilities_installed_before_invocation :
    (∀ (opts : Options) (fsExistsSync : String → Bool) (i : Nat)
        (f a b : String),
        (scriptTrace opts fsExistsSync)[i]? =
            some (ScriptStep.invokeCore f a b) →
        (scriptTrace opts fsExistsSync)[3]? =
            some (ScriptStep.installCapability .readFile)
        ∧ (scriptTrace opts fsExistsSync)[4]? =
            some (ScriptStep.installCapability .canonicalizeCap)
        ∧ (scriptTrace opts fsExistsSync)[5]? =
            some (ScriptStep.installCapability .fileExists)
        ∧ 5 < i)
    ∧ (∀ (fsReadFileSync : String → String → String) (file : String),
        installed_read_file fsReadFileSync file = fsReadFileSync file "utf8")
    ∧ (∀ (pathResolveOne : String → String) (file : String),
        installed_canonicalize pathResolveOne file = pathResolveOne file)
    ∧ (∀ (fsExistsSync : String → Bool) (file : String),
        installed_file_exists fsExistsSync file = fsExistsSync file) := by
  refine ⟨?_, fun _ _ => rfl, fun _ _ => rfl, fun _ _ => rfl⟩
  intro opts fsExistsSync i f a b hinv
  refine ⟨rfl, rfl, rfl, ?_⟩
  by_contra hle
  push_neg at hle
  interval_cases i <;> simp [scriptTrace, setupSteps] at hinv

/-- C7 witness: in a concrete single-file run the core invocation sits
at index 9, after the capability installations at indices 3, 4, 5. -/
theorem capabilities_installed_before_invocation_witness :
    (scriptTrace (Options.mk "./shaders" "./output" (some "a.frag") false)
        (fun s => s == "a.frag"))[9]? =
      some (ScriptStep.invokeCore "a.frag" "./shaders" "./output")
    ∧ ((scriptTrace (Options.mk "./shaders" "./output" (some "a.frag") false)
          (fun s => s == "a.frag"))[3]? =
        some (ScriptStep.installCapability .readFile)
      ∧ (scriptTrace (Options.mk "./shaders" "./output" (some "a.frag") false)
            (fun s => s == "a.frag"))[4]? =
          some (ScriptStep.installCapability .canonicalizeCap)
      ∧ (scriptTrace (Options.mk "./shaders" "./output" (some "a.frag") false)
            (fun s => s == "a.frag"))[5]? =
          some (ScriptStep.installCapability .fileExists)
      ∧ 5 < 9) :=
  ⟨by decide,
    capabilities_installed_before_invocation.1
      (Options.mk "./shaders" "./output" (some "a.frag") false)
      (fun s => s == "a.frag") 9 "a.frag" "./shaders" "./output" (by decide)⟩

end GlslTypes
